import Mathlib

/-!
# SmartV2X-CP — shallow embedding and verification of the risk pipeline

This file embeds, in Lean 4, the core risk-pipeline components of the
SmartV2X-CP repository and proves properties of them:

* `RLD` — `edge_rsu/services/rl_dissemination.py` (`RLDisseminator`),
  embedded over `ℚ`; the two sources of Python randomness
  (`random.random()` and `random.choice`) are passed in explicitly as
  arguments, and the fallible float division is modelled with `Option`
  (`none` = `ZeroDivisionError`).
* `CPM` — `edge_rsu/services/cp_map.py` (`CollisionProbabilityMap`),
  embedded over `ℝ`; the wall clock (`time.time()`) is passed explicitly;
  the insertion-ordered Python `dict` is an association list.
* `RA` — `edge_rsu/services/risk_aggregator.py` (`RiskAggregator`).
* `OBR` — `obu/collision/risk.py` (`CollisionRiskAssessor`).
* `EKF` — `obu/fusion/ekf.py` (`ExtendedKalmanFilter`), over `Matrix _ _ ℝ`;
  `np.linalg.inv` is modelled with `Option` (`none` = `LinAlgError`).
-/

namespace RLD

/-- The two dissemination actions; the source represents them as the
strings in `RLDisseminator.ACTIONS = ["WARN", "SKIP"]`. -/
inductive DAction where
  | WARN
  | SKIP
deriving DecidableEq, Repr

open DAction

/-- `RLDisseminator`'s fields.  `q_table` is the `defaultdict` Q-table as a
total function (unseen keys read the caller-chosen default; a freshly
constructed agent uses `fun _ _ => 0`).  Load bins are the strings the
source produces in `_get_state`. -/
structure RLDisseminator where
  lr : ℚ
  gamma : ℚ
  epsilon : ℚ
  max_capacity : ℤ
  q_table : String × String → DAction → ℚ
  current_warnings : ℕ
  total_decisions : ℕ

/-- An `RLDisseminator` as built by `__init__` with the given parameters. -/
def mkAgent (learning_rate discount epsilon : ℚ) (max_channel_capacity : ℤ) :
    RLDisseminator :=
  { lr := learning_rate, gamma := discount, epsilon := epsilon,
    max_capacity := max_channel_capacity,
    q_table := fun _ _ => 0, current_warnings := 0, total_decisions := 0 }

/-- `RLDisseminator._get_state`: bins `channel_load` at 0.4 and 0.75. -/
def get_state (risk_level : String) (channel_load : ℚ) : String × String :=
  (risk_level,
    if channel_load < 2/5 then "LOW"
    else if channel_load < 3/4 then "MED" else "HIGH")

/-- Python division, which raises `ZeroDivisionError` on a zero divisor. -/
def pyDiv (a b : ℚ) : Option ℚ :=
  if b = 0 then none else some (a / b)

/-- `max(q_vals, key=q_vals.get)` over the dict `{"WARN": qW, "SKIP": qS}`:
Python's `max` keeps the first key iterated (insertion order `WARN`, `SKIP`)
unless a later key's value is strictly greater. -/
def argmaxAction (q : DAction → ℚ) : DAction :=
  if q SKIP > q WARN then SKIP else WARN

/-- `RLDisseminator.decide`.  `rand` is the value of `random.random()`
(in `[0,1)`), `rand_action` the value `random.choice(ACTIONS)` would
return.  Returns the chosen action together with the updated agent;
`none` models an uncaught `ZeroDivisionError`. -/
def decide (a : RLDisseminator) (vehicle_id risk_level : String)
    (risk_score : ℚ) (rand : ℚ) (rand_action : DAction) :
    Option (DAction × RLDisseminator) :=
  match pyDiv (a.current_warnings : ℚ) ((max a.max_capacity 1 : ℤ) : ℚ) with
  | none => none
  | some channel_load =>
    let state := get_state risk_level channel_load
    let action := if rand < a.epsilon then rand_action
                  else argmaxAction (a.q_table state)
    some (action,
      { a with
        current_warnings :=
          a.current_warnings + (if action = WARN then 1 else 0),
        total_decisions := a.total_decisions + 1 })

/-- `RLDisseminator.update`: the Q-learning backup. -/
def update (a : RLDisseminator) (risk_level : String) (channel_load : ℚ)
    (action : DAction) (reward : ℚ) (next_risk_level : String)
    (next_channel_load : ℚ) : RLDisseminator :=
  let state := get_state risk_level channel_load
  let next_state := get_state next_risk_level next_channel_load
  let current_q := a.q_table state action
  let next_max_q := max (a.q_table next_state WARN) (a.q_table next_state SKIP)
  let new_q := current_q + a.lr * (reward + a.gamma * next_max_q - current_q)
  { a with
    q_table := fun s act =>
      if s = state ∧ act = action then new_q else a.q_table s act }

/-- `RLDisseminator.reset_epoch`. -/
def reset_epoch (a : RLDisseminator) : RLDisseminator :=
  { a with current_warnings := 0 }

/-- One call description for a run of `decide` calls:
(vehicle_id, risk_level, risk_score, rand, rand_action). -/
def DecideCall := String × String × ℚ × ℚ × DAction

/-- Threads a sequence of `decide` calls through the agent state
(the per-epoch behaviour the source realises via `batch_decide` or
repeated `decide`). -/
def decideRun (a : RLDisseminator) : List DecideCall → Option RLDisseminator
  | [] => some a
  | (vid, rl, rs, rnd, ra) :: rest =>
    match decide a vid rl rs rnd ra with
    | none => none
    | some (_, a') => decideRun a' rest

/-- The state `decide` derives before choosing an action: the risk level
paired with the bin of `current_warnings / max(max_capacity, 1)`. -/
def decideState (a : RLDisseminator) (risk_level : String) : String × String :=
  get_state risk_level
    ((a.current_warnings : ℚ) / ((max a.max_capacity 1 : ℤ) : ℚ))

/-- Agent exercising the missing capacity cap: capacity 1, epsilon 0. -/
def cexAgent : RLDisseminator := mkAgent (1/10) (19/20) 0 1

/-- Two greedy HIGH-risk decisions in one epoch against `cexAgent`. -/
def cexCalls : List DecideCall :=
  [("v1", "HIGH", 1, 1/2, DAction.WARN), ("v2", "HIGH", 9/10, 1/2, DAction.WARN)]

/-- A concrete agent whose Q-table strictly prefers WARN in every state. -/
def warnAgent : RLDisseminator :=
  { mkAgent 0 0 0 10 with
    q_table := fun _ act => if act = DAction.WARN then 1 else 0 }

end RLD

/-- Round half to even to the nearest integer, as Python's `round` does
on exact reals (binary-float representation artifacts are outside this
model). -/
noncomputable def pyRoundInt (y : ℝ) : ℤ :=
  if y - ⌊y⌋ < 1/2 then ⌊y⌋
  else if 1/2 < y - ⌊y⌋ then ⌊y⌋ + 1
  else if 2 ∣ ⌊y⌋ then ⌊y⌋ else ⌊y⌋ + 1

/-- Python's `round(x, ndigits)` on exact reals. -/
noncomputable def pyRound (x : ℝ) (ndigits : ℕ) : ℝ :=
  (pyRoundInt (x * 10 ^ ndigits) : ℝ) / 10 ^ ndigits

namespace CPM

/-- One cell of the CP-Map grid: `{"score": float, "updated_at": float,
"vehicles": set}`.  The Python `set` is a duplicate-free list. -/
structure GridEntry where
  score : ℝ
  updated_at : ℝ
  vehicles : List String

/-- `CollisionProbabilityMap`: configuration plus the `_grid` dict, an
insertion-ordered association list keyed by `(row, col)`. -/
structure CollisionProbabilityMap where
  grid_size : ℝ
  decay_rate : ℝ
  lat_ref : ℝ
  lon_ref : ℝ
  grid : List ((ℤ × ℤ) × GridEntry)

/-- A `CollisionProbabilityMap` as built by `__init__` (empty grid). -/
def mkMap (grid_size decay_rate lat_ref lon_ref : ℝ) :
    CollisionProbabilityMap :=
  ⟨grid_size, decay_rate, lat_ref, lon_ref, []⟩

/-- Dict lookup on the association list (first, hence unique, key match). -/
def gridFind : List ((ℤ × ℤ) × GridEntry) → (ℤ × ℤ) → Option GridEntry
  | [], _ => none
  | (k, e) :: t, c => if k = c then some e else gridFind t c

/-- Dict write: replace the entry at an existing key in place, else append
(Python dicts keep insertion order). -/
def gridInsert : List ((ℤ × ℤ) × GridEntry) → (ℤ × ℤ) → GridEntry →
    List ((ℤ × ℤ) × GridEntry)
  | [], c, e => [(c, e)]
  | (k, e') :: t, c, e =>
    if k = c then (c, e) :: t else (k, e') :: gridInsert t c e

/-- `CollisionProbabilityMap._latlon_to_cell`: flat-earth projection about
the reference point, then integer floor division by the cell size
(`int(dx // grid_size)` on floats is the floor). -/
noncomputable def latlon_to_cell (m : CollisionProbabilityMap)
    (lat lon : ℝ) : ℤ × ℤ :=
  let dx := (lon - m.lon_ref) * 111320 * Real.cos (m.lat_ref * (Real.pi / 180))
  let dy := (lat - m.lat_ref) * 110540
  (⌊dy / m.grid_size⌋, ⌊dx / m.grid_size⌋)

/-- `set.add`: add the id if not already present. -/
def setAdd (v : String) (l : List String) : List String :=
  if v ∈ l then l else l ++ [v]

/-- `CollisionProbabilityMap.update`; `now` is the value of `time.time()`.
The `defaultdict` default entry is `{"score": 0.0, "updated_at": now,
"vehicles": set()}`. -/
noncomputable def update (m : CollisionProbabilityMap) (vehicle_id : String)
    (lat lon risk_score : ℝ) (now : ℝ) : CollisionProbabilityMap :=
  let cell := latlon_to_cell m lat lon
  let entry := (gridFind m.grid cell).getD ⟨0, now, []⟩
  { m with grid := (gridInsert m.grid cell
      ⟨min 1 (entry.score + risk_score * 0.3), now,
        setAdd vehicle_id entry.vehicles⟩) }

/-- `CollisionProbabilityMap.get_risk_at`: lazily decayed, rounded score;
0 for a cell that is not in the grid. -/
noncomputable def get_risk_at (m : CollisionProbabilityMap)
    (lat lon : ℝ) (now : ℝ) : ℝ :=
  match gridFind m.grid (latlon_to_cell m lat lon) with
  | none => 0
  | some entry =>
    let elapsed := now - entry.updated_at
    pyRound (entry.score * Real.exp (-m.decay_rate * elapsed)) 4

/-- One record returned by `get_hotspots`. -/
structure Hotspot where
  cell : ℤ × ℤ
  risk_score : ℝ
  vehicles : List String

/-- `CollisionProbabilityMap.get_hotspots`: cells whose lazily decayed
score is above the threshold, sorted descending by score. -/
noncomputable def get_hotspots (m : CollisionProbabilityMap)
    (threshold : ℝ) (now : ℝ) : List Hotspot :=
  let hotspots := m.grid.filterMap (fun p =>
    let elapsed := now - p.2.updated_at
    let current := p.2.score * Real.exp (-m.decay_rate * elapsed)
    if current > threshold then
      some ⟨p.1, pyRound current 4, p.2.vehicles⟩
    else none)
  hotspots.mergeSort (fun a b => decide (b.risk_score ≤ a.risk_score))

/-- `CollisionProbabilityMap.decay_all`: eagerly decay every entry, stamp
`now`, then drop the entries whose new score is below 0.01. -/
noncomputable def decay_all (m : CollisionProbabilityMap) (now : ℝ) :
    CollisionProbabilityMap :=
  { m with grid :=
      ((m.grid.map (fun p =>
        (p.1, GridEntry.mk
          (p.2.score * Real.exp (-m.decay_rate * (now - p.2.updated_at)))
          now p.2.vehicles))).filter
        (fun p => decide (¬ p.2.score < 0.01))) }

/-- `CollisionProbabilityMap.active_cells`. -/
def active_cells (m : CollisionProbabilityMap) : ℕ := m.grid.length

end CPM

namespace RA

/-- The kinematic state dict `{"x", "y", "vx", "vy"}` of one vehicle as
read by `_compute_pair_risk` (the `.get(_, 0)` defaults only matter for
missing keys, which this model does not exercise). -/
structure VehState where
  x : ℝ
  y : ℝ
  vx : ℝ
  vy : ℝ

/-- The risk-record dict produced by `RiskAggregator._compute_pair_risk`. -/
structure RiskRecord where
  vehicle_a : String
  vehicle_b : String
  distance_m : ℝ
  relative_speed_mps : ℝ
  ttc_seconds : Option ℝ
  risk_score : ℝ
  risk_level : String
  timestamp : ℝ

/-- `dist = math.sqrt((xa - xb)**2 + (ya - yb)**2)`. -/
noncomputable def pairDist (va vb : VehState) : ℝ :=
  Real.sqrt ((va.x - vb.x) ^ 2 + (va.y - vb.y) ^ 2)

/-- `rel_speed = math.sqrt((vxa - vxb)**2 + (vya - vyb)**2)`. -/
noncomputable def pairRelSpeed (va vb : VehState) : ℝ :=
  Real.sqrt ((va.vx - vb.vx) ^ 2 + (va.vy - vb.vy) ^ 2)

/-- `ttc = dist / rel_speed if rel_speed > 0.1 else float("inf")`;
`none` stands for the infinite TTC. -/
noncomputable def ttcOf (dist rel_speed : ℝ) : Option ℝ :=
  if rel_speed > 0.1 then some (dist / rel_speed) else none

/-- `risk_score = min(1, (1/(ttc+0.1)) * (1/(dist+1)) * 50) if ttc < 100
else 0` (an infinite TTC is never `< 100`). -/
noncomputable def scoreOf (dist : ℝ) : Option ℝ → ℝ
  | some t =>
    if t < 100 then min 1 ((1 / (t + 0.1)) * (1 / (dist + 1)) * 50) else 0
  | none => 0

/-- The classification thresholds: `> 0.7` HIGH, `> 0.3` MEDIUM, else LOW. -/
noncomputable def levelOf (risk_score : ℝ) : String :=
  if risk_score > 0.7 then "HIGH"
  else if risk_score > 0.3 then "MEDIUM" else "LOW"

/-- `ttc_seconds = round(ttc, 2) if ttc < 1000 else None` (an infinite
TTC also yields `None`). -/
noncomputable def ttcField : Option ℝ → Option ℝ
  | some t => if t < 1000 then some (pyRound t 2) else none
  | none => none

/-- `RiskAggregator._compute_pair_risk`; `now` is `time.time()`.  The
write-only `_pair_cache` side effect is dropped (nothing in the core ever
reads it). -/
noncomputable def compute_pair_risk (distance_threshold : ℝ)
    (id_a : String) (va : VehState) (id_b : String) (vb : VehState)
    (now : ℝ) : Option RiskRecord :=
  let dist := pairDist va vb
  if dist > distance_threshold then none
  else
    let rel_speed := pairRelSpeed va vb
    let ttc := ttcOf dist rel_speed
    let risk_score := scoreOf dist ttc
    some { vehicle_a := id_a, vehicle_b := id_b,
           distance_m := pyRound dist 2,
           relative_speed_mps := pyRound rel_speed 2,
           ttc_seconds := ttcField ttc,
           risk_score := pyRound risk_score 4,
           risk_level := levelOf risk_score,
           timestamp := now }

/-- The double loop `for i in range(n): for j in range(i+1, n)` collecting
the non-`None` pair records in order. -/
noncomputable def pairRecords (distance_threshold : ℝ) (now : ℝ) :
    List (String × VehState) → List RiskRecord
  | [] => []
  | (id_a, va) :: rest =>
    (rest.filterMap fun p =>
      compute_pair_risk distance_threshold id_a va p.1 p.2 now) ++
      pairRecords distance_threshold now rest

/-- `RiskAggregator.aggregate`: all pair records, sorted descending by
`risk_score` (`list.sort(key=..., reverse=True)` is a stable descending
sort). -/
noncomputable def aggregate (distance_threshold : ℝ)
    (vehicles : List (String × VehState)) (now : ℝ) : List RiskRecord :=
  (pairRecords distance_threshold now vehicles).mergeSort
    (fun a b => decide (b.risk_score ≤ a.risk_score))

end RA

namespace OBR

/-- `RiskLevel(str, Enum)`. -/
inductive RiskLevel where
  | LOW
  | MEDIUM
  | HIGH
deriving DecidableEq, Repr

/-- `CollisionRiskAssessor.__init__`'s configured thresholds. -/
structure CollisionRiskAssessor where
  ttc_high : ℝ
  ttc_medium : ℝ
  min_dist_alert : ℝ

/-- `CollisionAssessment` (without the human-readable `details` string,
which carries no behaviour). -/
structure CollisionAssessment where
  risk_level : RiskLevel
  ttc_seconds : Option ℝ
  min_distance_m : ℝ
  intersection_point : Option (ℝ × ℝ)

/-- `CollisionRiskAssessor._classify_ttc`. -/
noncomputable def _classify_ttc (a : CollisionRiskAssessor)
    (ttc : Option ℝ) (min_dist : ℝ) : RiskLevel :=
  match ttc with
  | some t =>
    if t ≤ a.ttc_high then RiskLevel.HIGH
    else if t ≤ a.ttc_medium then RiskLevel.MEDIUM
    else if min_dist < a.min_dist_alert then RiskLevel.MEDIUM
    else RiskLevel.LOW
  | none =>
    if min_dist < a.min_dist_alert then RiskLevel.MEDIUM
    else RiskLevel.LOW

/-- `CollisionRiskAssessor.assess_radar`. -/
noncomputable def assess_radar (a : CollisionRiskAssessor)
    (distance_m relative_velocity : ℝ) : CollisionAssessment :=
  let ttc : Option ℝ :=
    if relative_velocity < -0.1 then some |distance_m / relative_velocity|
    else none
  { risk_level := _classify_ttc a ttc distance_m,
    ttc_seconds := ttc,
    min_distance_m := distance_m,
    intersection_point := none }

/-- `a = dvx**2 + dvy**2` in `compute_ttc`. -/
noncomputable def ttcA (vel_ego vel_other : ℝ × ℝ) : ℝ :=
  (vel_other.1 - vel_ego.1) ^ 2 + (vel_other.2 - vel_ego.2) ^ 2

/-- `b = 2 * (dx * dvx + dy * dvy)` in `compute_ttc`. -/
noncomputable def ttcB (pos_ego vel_ego pos_other vel_other : ℝ × ℝ) : ℝ :=
  2 * ((pos_other.1 - pos_ego.1) * (vel_other.1 - vel_ego.1) +
    (pos_other.2 - pos_ego.2) * (vel_other.2 - vel_ego.2))

/-- `c = dx**2 + dy**2 - (2 * radius)**2` in `compute_ttc`. -/
noncomputable def ttcC (pos_ego pos_other : ℝ × ℝ) (radius : ℝ) : ℝ :=
  (pos_other.1 - pos_ego.1) ^ 2 + (pos_other.2 - pos_ego.2) ^ 2 -
    (2 * radius) ^ 2

/-- `CollisionRiskAssessor.compute_ttc`.  The final
`for t in sorted([t1, t2]): if t > 0: return t` is the first strictly
positive value among `min t1 t2` then `max t1 t2`. -/
noncomputable def compute_ttc (pos_ego vel_ego pos_other vel_other : ℝ × ℝ)
    (radius : ℝ) : Option ℝ :=
  let a := ttcA vel_ego vel_other
  if a < 1e-10 then none
  else
    let b := ttcB pos_ego vel_ego pos_other vel_other
    let c := ttcC pos_ego pos_other radius
    let disc := b ^ 2 - 4 * a * c
    if disc < 0 then none
    else
      let sqrt_disc := Real.sqrt disc
      let t1 := (-b - sqrt_disc) / (2 * a)
      let t2 := (-b + sqrt_disc) / (2 * a)
      if min t1 t2 > 0 then some (min t1 t2)
      else if max t1 t2 > 0 then some (max t1 t2)
      else none

end OBR

namespace EKF

/-- `ExtendedKalmanFilter`'s mutable state and per-sensor noise models
(bound at construction). -/
structure EKFState where
  x : Fin 6 → ℝ
  P : Matrix (Fin 6) (Fin 6) ℝ
  Q : Matrix (Fin 6) (Fin 6) ℝ
  R_gps : Matrix (Fin 2) (Fin 2) ℝ
  R_imu : Matrix (Fin 2) (Fin 2) ℝ
  R_radar : Matrix (Fin 1) (Fin 1) ℝ
  dt : ℝ
  initialised : Bool

/-- `np.linalg.inv`, raising `LinAlgError` (`none`) on a singular matrix. -/
noncomputable def npInv {m : ℕ} (S : Matrix (Fin m) (Fin m) ℝ) :
    Option (Matrix (Fin m) (Fin m) ℝ) :=
  if S.det = 0 then none else some S⁻¹

/-- `ExtendedKalmanFilter._ekf_update`: innovation → gain → correct; the
`LinAlgError` on a singular innovation covariance is caught and the
update skipped, leaving `(x, P)` untouched. -/
noncomputable def _ekf_update {m : ℕ} (x : Fin 6 → ℝ)
    (P : Matrix (Fin 6) (Fin 6) ℝ) (z : Fin m → ℝ)
    (H : Matrix (Fin m) (Fin 6) ℝ) (R : Matrix (Fin m) (Fin m) ℝ) :
    (Fin 6 → ℝ) × Matrix (Fin 6) (Fin 6) ℝ :=
  let y := z - H.mulVec x
  let S := H * P * H.transpose + R
  match npInv S with
  | none => (x, P)
  | some Sinv =>
    let K := P * H.transpose * Sinv
    (x + K.mulVec y, (1 - K * H) * P)

/-- The GPS observation matrix (rows observe x and y). -/
def gpsH : Matrix (Fin 2) (Fin 6) ℝ :=
  Matrix.of ![![1, 0, 0, 0, 0, 0], ![0, 1, 0, 0, 0, 0]]

/-- The IMU observation matrix (rows observe ax and ay). -/
def imuH : Matrix (Fin 2) (Fin 6) ℝ :=
  Matrix.of ![![0, 0, 0, 0, 1, 0], ![0, 0, 0, 0, 0, 1]]

/-- The linearised radar observation row at the current estimate, with
the guard `r = max(sqrt(px² + py²), 1e-6)`. -/
noncomputable def radarH (st : EKFState) : Matrix (Fin 1) (Fin 6) ℝ :=
  let px := st.x 0
  let py := st.x 1
  let r := max (Real.sqrt (px ^ 2 + py ^ 2)) 1e-6
  Matrix.of ![![px / r, py / r, 0, 0, 0, 0]]

/-- `_latlon_to_metres`: flat-earth conversion about the class reference
point (28.6139, 77.2090). -/
noncomputable def _latlon_to_metres (lat lon : ℝ) : ℝ × ℝ :=
  ((lon - 77.2090) * 111320 * Real.cos (28.6139 * (Real.pi / 180)),
    (lat - 28.6139) * 110540)

/-- `ExtendedKalmanFilter.update_gps`: correction observing (x, y), then
position seeding on the very first fix. -/
noncomputable def update_gps (st : EKFState) (lat lon : ℝ) : EKFState :=
  let xy := _latlon_to_metres lat lon
  let z : Fin 2 → ℝ := ![xy.1, xy.2]
  let r := _ekf_update st.x st.P z gpsH st.R_gps
  if st.initialised then { st with x := r.1, P := r.2 }
  else
    { st with
      x := Function.update (Function.update r.1 0 xy.1) 1 xy.2,
      P := r.2, initialised := true }

/-- `ExtendedKalmanFilter.update_imu`. -/
noncomputable def update_imu (st : EKFState) (ax ay : ℝ) : EKFState :=
  let z : Fin 2 → ℝ := ![ax, ay]
  let r := _ekf_update st.x st.P z imuH st.R_imu
  { st with x := r.1, P := r.2 }

/-- `ExtendedKalmanFilter.update_radar`. -/
noncomputable def update_radar (st : EKFState) (distance : ℝ) : EKFState :=
  let z : Fin 1 → ℝ := ![distance]
  let r := _ekf_update st.x st.P z (radarH st) st.R_radar
  { st with x := r.1, P := r.2 }

/-- `_state_transition`: the constant-acceleration transition matrix. -/
noncomputable def _state_transition (dt : ℝ) : Matrix (Fin 6) (Fin 6) ℝ :=
  Matrix.of ![![1, 0, dt, 0, 0.5 * dt ^ 2, 0],
              ![0, 1, 0, dt, 0, 0.5 * dt ^ 2],
              ![0, 0, 1, 0, dt, 0],
              ![0, 0, 0, 1, 0, dt],
              ![0, 0, 0, 0, 1, 0],
              ![0, 0, 0, 0, 0, 1]]

/-- `ExtendedKalmanFilter.predict`. -/
noncomputable def predict (st : EKFState) (dt : ℝ) : EKFState :=
  let F := _state_transition dt
  { st with dt := dt, x := F.mulVec st.x, P := F * st.P * F.transpose + st.Q }

end EKF

-- ### Theorems ------------------------------------------------------------

/-- Rounding down: if the fractional part of `x * 10^n` is below a half,
`pyRound x n = ⌊x * 10^n⌋ / 10^n`. -/
lemma pyRound_of_lt_half {x : ℝ} {n : ℕ} {f : ℤ} (hf : ⌊x * 10 ^ n⌋ = f)
    (h : x * 10 ^ n - f < 1 / 2) :
    pyRound x n = (f : ℝ) / 10 ^ n := by
  unfold pyRound pyRoundInt
  rw [hf, if_pos h]

/-- Rounding a real that is exactly an integer multiple of `10^-n` is the
identity. -/
lemma pyRound_exact {x : ℝ} {n : ℕ} {q : ℤ} (h : x * 10 ^ n = q) :
    pyRound x n = x := by
  have hf : ⌊x * 10 ^ n⌋ = q := by rw [h, Int.floor_intCast]
  have hr := pyRound_of_lt_half hf (by rw [h]; norm_num)
  rw [hr]
  have hn : ((10 : ℝ) ^ n) ≠ 0 := by positivity
  field_simp
  linarith [h]


namespace RLD

open DAction

/-- The channel-load divisor is never zero, so `decide` always succeeds. -/
lemma decide_some (a : RLDisseminator) (vehicle_id risk_level : String)
    (risk_score : ℚ) (rand : ℚ) (rand_action : DAction) :
    ∃ act : DAction,
      decide a vehicle_id risk_level risk_score rand rand_action =
      some (act,
        { a with
          current_warnings :=
            a.current_warnings + (if act = WARN then 1 else 0),
          total_decisions := a.total_decisions + 1 }) := by
  have hmax : (1 : ℤ) ≤ max a.max_capacity 1 := le_max_right _ _
  have hne : ((max a.max_capacity 1 : ℤ) : ℚ) ≠ 0 := by
    intro h
    have : (max a.max_capacity 1 : ℤ) = 0 := by exact_mod_cast h
    omega
  unfold decide pyDiv
  rw [if_neg hne]
  refine ⟨if rand < a.epsilon then rand_action
    else argmaxAction (a.q_table (get_state risk_level
      ((a.current_warnings : ℚ) / ((max a.max_capacity 1 : ℤ) : ℚ)))), ?_⟩
  rfl

/-- In the exploitation branch, `decide` returns the greedy action for
`decideState`. -/
lemma decide_map_fst (a : RLDisseminator) (vehicle_id risk_level : String)
    (risk_score : ℚ) (rand : ℚ) (rand_action : DAction)
    (h : ¬ rand < a.epsilon) :
    (decide a vehicle_id risk_level risk_score rand rand_action).map Prod.fst =
      some (argmaxAction (a.q_table (decideState a risk_level))) := by
  have hmax : (1 : ℤ) ≤ max a.max_capacity 1 := le_max_right _ _
  have hne : ((max a.max_capacity 1 : ℤ) : ℚ) ≠ 0 := by
    intro hz
    have : (max a.max_capacity 1 : ℤ) = 0 := by exact_mod_cast hz
    omega
  unfold decide pyDiv
  rw [if_neg hne]
  simp only [Option.map_some]
  rw [if_neg h]
  rfl

/-- C10: `RLDisseminator.decide` never raises a division-by-zero error,
even with `max_channel_capacity = 0`: the channel-load divisor is
`max(max_capacity, 1)`, which is positive, so `decide` is total for every
risk-level string, every warning-counter value and every randomness. -/
theorem decide_total_no_divzero :
    ∀ (a : RLDisseminator) (vehicle_id risk_level : String)
      (risk_score rand : ℚ) (rand_action : DAction),
      (decide a vehicle_id risk_level risk_score rand rand_action).isSome = true ∧
      (0 : ℤ) < max a.max_capacity 1 := by
  intro a vid rl rs rnd ra
  obtain ⟨act, h⟩ := decide_some a vid rl rs rnd ra
  refine ⟨by rw [h]; rfl, ?_⟩
  have := le_max_right a.max_capacity 1
  omega

/-- C9: with `epsilon = 0` (and `random.random()` values, which are always
nonnegative), `decide` is deterministic — two runs from the same agent
state agree — and it picks the strictly-higher-Q action for the state
`(risk_level, load bucket)`, ties resolved to WARN (the fixed action
order). -/
theorem decide_eps_zero_greedy :
    ∀ (a : RLDisseminator) (v1 v2 risk_level : String)
      (rs1 rs2 rnd1 rnd2 : ℚ) (ra1 ra2 : DAction),
      a.epsilon = 0 → 0 ≤ rnd1 → 0 ≤ rnd2 →
      ((decide a v1 risk_level rs1 rnd1 ra1).map Prod.fst =
        (decide a v2 risk_level rs2 rnd2 ra2).map Prod.fst) ∧
      (a.q_table (decideState a risk_level) DAction.WARN >
          a.q_table (decideState a risk_level) DAction.SKIP →
        (decide a v1 risk_level rs1 rnd1 ra1).map Prod.fst =
          some DAction.WARN) ∧
      (a.q_table (decideState a risk_level) DAction.SKIP >
          a.q_table (decideState a risk_level) DAction.WARN →
        (decide a v1 risk_level rs1 rnd1 ra1).map Prod.fst =
          some DAction.SKIP) ∧
      (a.q_table (decideState a risk_level) DAction.WARN =
          a.q_table (decideState a risk_level) DAction.SKIP →
        (decide a v1 risk_level rs1 rnd1 ra1).map Prod.fst =
          some DAction.WARN) := by
  intro a v1 v2 rl rs1 rs2 rnd1 rnd2 ra1 ra2 heps h1 h2
  have hn1 : ¬ rnd1 < a.epsilon := by rw [heps]; exact not_lt.mpr h1
  have hn2 : ¬ rnd2 < a.epsilon := by rw [heps]; exact not_lt.mpr h2
  have e1 := decide_map_fst a v1 rl rs1 rnd1 ra1 hn1
  have e2 := decide_map_fst a v2 rl rs2 rnd2 ra2 hn2
  refine ⟨e1.trans e2.symm, ?_, ?_, ?_⟩
  · intro hgt
    rw [e1]
    unfold argmaxAction
    rw [if_neg (not_lt.mpr (le_of_lt hgt))]
  · intro hgt
    rw [e1]
    unfold argmaxAction
    rw [if_pos hgt]
  · intro heq
    rw [e1]
    unfold argmaxAction
    rw [if_neg (by rw [heq]; exact lt_irrefl _)]

/-- Witness for C9 at a concrete agent whose Q-table prefers WARN in every
state: both runs agree and return WARN. -/
theorem decide_eps_zero_greedy_witness :
    (decide warnAgent "a" "HIGH" 1 0 DAction.WARN).map Prod.fst =
      (decide warnAgent "b" "HIGH" (9/10) (1/2) DAction.SKIP).map Prod.fst ∧
    (decide warnAgent "a" "HIGH" 1 0 DAction.WARN).map Prod.fst =
      some DAction.WARN := by
  have h := decide_eps_zero_greedy warnAgent
    "a" "b" "HIGH" 1 (9/10) 0 (1/2) DAction.WARN DAction.SKIP
    rfl le_rfl (by norm_num)
  exact ⟨h.1, h.2.1 (by decide)⟩

/-- C1 (counterexample): with capacity 1 and epsilon 0, two greedy
HIGH-risk `decide` calls in one epoch drive the live-warning counter to
2, strictly above `max_channel_capacity = 1`: the counter is NOT bounded
by the capacity. -/
theorem warnings_exceed_capacity :
    (decideRun cexAgent cexCalls).map
      (fun a => (a.current_warnings : ℤ)) = some 2 ∧
    ¬ ((2 : ℤ) ≤ cexAgent.max_capacity) := by
  constructor
  · simp only [cexAgent, cexCalls, mkAgent, decideRun, RLD.decide, pyDiv,
      get_state, argmaxAction]
    norm_num
  · decide

/-- C1 (amended): across any sequence of `decide` calls in an epoch the
live-warning counter grows by at most one per call — it is bounded by its
initial value plus the number of calls, not by `max_channel_capacity` —
and `reset_epoch` sets it to exactly 0. -/
theorem warnings_bound :
    (∀ (a : RLDisseminator) (calls : List DecideCall) (a' : RLDisseminator),
        decideRun a calls = some a' →
        a'.current_warnings ≤ a.current_warnings + calls.length) ∧
    (∀ a : RLDisseminator, (reset_epoch a).current_warnings = 0) := by
  constructor
  · intro a calls
    induction calls generalizing a with
    | nil =>
      intro a' h
      simp only [decideRun] at h
      cases h
      simp
    | cons c rest ih =>
      intro a' h
      obtain ⟨vid, rl, rs, rnd, ra⟩ := c
      simp only [decideRun] at h
      obtain ⟨act, hd⟩ := decide_some a vid rl rs rnd ra
      rw [hd] at h
      have hrec := ih _ _ h
      simp only [List.length_cons]
      split at hrec
      · have h2 : a'.current_warnings ≤ a.current_warnings + 1 + rest.length := hrec
        omega
      · have h2 : a'.current_warnings ≤ a.current_warnings + 0 + rest.length := hrec
        omega
  · intro a
    rfl

/-- Witness for C1's amended bound at a concrete agent and the empty
call sequence. -/
theorem warnings_bound_witness :
    (mkAgent 0 0 (3/20) 5).current_warnings ≤
      (mkAgent 0 0 (3/20) 5).current_warnings +
        ([] : List DecideCall).length ∧
    (reset_epoch (mkAgent 0 0 (3/20) 5)).current_warnings = 0 :=
  ⟨warnings_bound.1 (mkAgent 0 0 (3/20) 5) [] _ rfl,
    warnings_bound.2 (mkAgent 0 0 (3/20) 5)⟩

end RLD

namespace CPM

lemma gridFind_gridInsert_self (g : List ((ℤ × ℤ) × GridEntry))
    (c : ℤ × ℤ) (e : GridEntry) :
    gridFind (gridInsert g c e) c = some e := by
  induction g with
  | nil => simp [gridInsert, gridFind]
  | cons p t ih =>
    obtain ⟨k, e'⟩ := p
    by_cases h : k = c
    · simp [gridInsert, h, gridFind]
    · simp [gridInsert, h, gridFind, ih]

lemma gridFind_mem {g : List ((ℤ × ℤ) × GridEntry)} {c : ℤ × ℤ}
    {e : GridEntry} (h : gridFind g c = some e) : (c, e) ∈ g := by
  induction g with
  | nil => simp [gridFind] at h
  | cons p t ih =>
    obtain ⟨k, e'⟩ := p
    simp only [gridFind] at h
    by_cases hk : k = c
    · rw [if_pos hk] at h
      cases h
      subst hk
      exact List.mem_cons_self _ _
    · rw [if_neg hk] at h
      exact List.mem_cons_of_mem _ (ih h)

lemma mem_gridFind {g : List ((ℤ × ℤ) × GridEntry)}
    (hn : (g.map Prod.fst).Nodup) {c : ℤ × ℤ} {e : GridEntry}
    (hm : (c, e) ∈ g) : gridFind g c = some e := by
  induction g with
  | nil => simp at hm
  | cons p t ih =>
    obtain ⟨k, e'⟩ := p
    simp only [List.map_cons, List.nodup_cons] at hn
    rcases List.mem_cons.mp hm with h | h
    · cases h
      simp [gridFind]
    · have hkc : k ≠ c := by
        intro hk
        exact hn.1 (by
          subst hk
          exact List.mem_map.mpr ⟨(k, e), h, rfl⟩)
      simp only [gridFind, if_neg hkc]
      exact ih hn.2 h

lemma gridFind_none_iff {g : List ((ℤ × ℤ) × GridEntry)} {c : ℤ × ℤ} :
    gridFind g c = none ↔ c ∉ g.map Prod.fst := by
  induction g with
  | nil => simp [gridFind]
  | cons p t ih =>
    obtain ⟨k, e'⟩ := p
    by_cases hk : k = c
    · subst hk
      simp [gridFind]
    · simp only [gridFind, if_neg hk, List.map_cons, List.mem_cons, ih]
      constructor
      · intro h hc
        rcases hc with hc | hc
        · exact hk hc.symm
        · exact h hc
      · intro h hc
        exact h (Or.inr hc)

/-- C2: `update` adds 30% of `risk_score` to the currently stored (not
freshly decayed) score, clamped at 1.0; `get_risk_at` on a never-updated
cell returns 0; and `update` with `risk_score = 1` on a fresh cell
followed by an immediate `get_risk_at` at the same location returns
exactly 0.3. -/
theorem update_get_risk_spec :
    (∀ (m : CollisionProbabilityMap) (vid : String) (lat lon risk now : ℝ),
      0 ≤ risk → risk ≤ 1 →
      (gridFind (update m vid lat lon risk now).grid
          (latlon_to_cell m lat lon)).map GridEntry.score =
        some (min 1
          (((gridFind m.grid (latlon_to_cell m lat lon)).getD
              ⟨0, now, []⟩).score + risk * 0.3))) ∧
    (∀ (m : CollisionProbabilityMap) (lat lon now : ℝ),
      gridFind m.grid (latlon_to_cell m lat lon) = none →
      get_risk_at m lat lon now = 0) ∧
    (∀ (m : CollisionProbabilityMap) (vid : String) (lat lon now : ℝ),
      gridFind m.grid (latlon_to_cell m lat lon) = none →
      get_risk_at (update m vid lat lon 1 now) lat lon now = 0.3) := by
  refine ⟨?_, ?_, ?_⟩
  · intro m vid lat lon risk now h0 h1
    unfold update
    rw [gridFind_gridInsert_self]
    rfl
  · intro m lat lon now h
    unfold get_risk_at
    rw [h]
  · intro m vid lat lon now h
    have hfind : gridFind (update m vid lat lon 1 now).grid
        (latlon_to_cell m lat lon) =
        some ⟨min 1
            (((gridFind m.grid (latlon_to_cell m lat lon)).getD
                ⟨0, now, []⟩).score + 1 * 0.3), now,
          setAdd vid ((gridFind m.grid (latlon_to_cell m lat lon)).getD
              ⟨0, now, []⟩).vehicles⟩ := by
      unfold update
      exact gridFind_gridInsert_self _ _ _
    rw [h] at hfind
    simp only [Option.getD_none] at hfind
    unfold get_risk_at
    rw [show latlon_to_cell (update m vid lat lon 1 now) lat lon =
        latlon_to_cell m lat lon from rfl]
    rw [hfind]
    show pyRound ((min 1 (0 + 1 * 0.3) : ℝ) *
        Real.exp (-m.decay_rate * (now - now))) 4 = 0.3
    rw [show -m.decay_rate * (now - now) = 0 by ring_nf, Real.exp_zero,
      mul_one, show (min 1 (0 + 1 * 0.3) : ℝ) = 0.3 by norm_num]
    exact pyRound_exact (q := 3000) (by norm_num)

/-- Witness for C2 on a concrete empty map: a never-touched cell reads 0,
and a fresh full-risk update reads back 0.3. -/
theorem update_get_risk_witness :
    get_risk_at (mkMap 50 (1/20) 0 0) 1 2 5 = 0 ∧
    get_risk_at (update (mkMap 50 (1/20) 0 0) "v" 1 2 1 5) 1 2 5 = 0.3 :=
  ⟨update_get_risk_spec.2.1 (mkMap 50 (1/20) 0 0) 1 2 5 rfl,
    update_get_risk_spec.2.2 (mkMap 50 (1/20) 0 0) "v" 1 2 5 rfl⟩

end CPM

namespace CPM

/-- The per-entry transformation `decay_all` applies before eviction. -/
noncomputable def decayEntry (m : CollisionProbabilityMap) (now : ℝ)
    (p : (ℤ × ℤ) × GridEntry) : (ℤ × ℤ) × GridEntry :=
  (p.1, ⟨p.2.score * Real.exp (-m.decay_rate * (now - p.2.updated_at)),
    now, p.2.vehicles⟩)

lemma decay_all_grid (m : CollisionProbabilityMap) (now : ℝ) :
    (decay_all m now).grid =
      (m.grid.map (decayEntry m now)).filter
        (fun p => decide (¬ p.2.score < 0.01)) := rfl

lemma decay_all_keys_nodup (m : CollisionProbabilityMap) (now : ℝ)
    (hn : (m.grid.map Prod.fst).Nodup) :
    ((decay_all m now).grid.map Prod.fst).Nodup := by
  rw [decay_all_grid]
  refine List.Nodup.sublist (List.Sublist.map Prod.fst (List.filter_sublist _)) ?_
  rw [List.map_map]
  have hfst : Prod.fst ∘ decayEntry m now = Prod.fst := funext fun p => rfl
  rw [hfst]
  exact hn

/-- C6: `decay_all` multiplies every cell's stored score by
`exp(-decay_rate * elapsed)` (elapsed measured from that cell's own last
update), stamps the current time, and evicts every cell whose decayed
score falls below 0.01; evicted cells are absent from `get_hotspots` and
no longer counted in `active_cells`. -/
theorem decay_all_spec :
    ∀ (m : CollisionProbabilityMap) (now : ℝ) (c : ℤ × ℤ) (e : GridEntry),
      (m.grid.map Prod.fst).Nodup →
      gridFind m.grid c = some e →
      (¬ e.score * Real.exp (-m.decay_rate * (now - e.updated_at)) < 0.01 →
        gridFind (decay_all m now).grid c =
          some ⟨e.score * Real.exp (-m.decay_rate * (now - e.updated_at)),
            now, e.vehicles⟩) ∧
      (e.score * Real.exp (-m.decay_rate * (now - e.updated_at)) < 0.01 →
        gridFind (decay_all m now).grid c = none ∧
        (∀ threshold t, c ∉ (get_hotspots (decay_all m now) threshold t).map
            Hotspot.cell) ∧
        active_cells (decay_all m now) < active_cells m) := by
  intro m now c e hn hf
  have hmem : (c, e) ∈ m.grid := gridFind_mem hf
  have hmemF : decayEntry m now (c, e) ∈ m.grid.map (decayEntry m now) :=
    List.mem_map_of_mem _ hmem
  constructor
  · intro hge
    have hkeep : (fun p => decide (¬ p.2.score < 0.01))
        (decayEntry m now (c, e)) = true := by
      show decide (¬ e.score *
        Real.exp (-m.decay_rate * (now - e.updated_at)) < 0.01) = true
      rw [decide_eq_true_eq]
      exact hge
    have hmemfil : decayEntry m now (c, e) ∈ (decay_all m now).grid := by
      rw [decay_all_grid]
      exact List.mem_filter.mpr ⟨hmemF, hkeep⟩
    exact mem_gridFind (decay_all_keys_nodup m now hn) hmemfil
  · intro hlt
    have hnone : gridFind (decay_all m now).grid c = none := by
      rw [gridFind_none_iff]
      intro hc
      obtain ⟨p, hpmem, hpc⟩ := List.mem_map.mp hc
      rw [decay_all_grid] at hpmem
      obtain ⟨hpin, hpkeep⟩ := List.mem_filter.mp hpmem
      obtain ⟨q, hqmem, hqp⟩ := List.mem_map.mp hpin
      have hq1 : q.1 = c := by
        have : (decayEntry m now q).1 = q.1 := rfl
        rw [hqp] at this
        rw [← this, hpc]
      have hqpair : ((c, q.2) : (ℤ × ℤ) × GridEntry) ∈ m.grid := by
        rw [← hq1]
        exact hqmem
      have : gridFind m.grid c = some q.2 := mem_gridFind hn hqpair
      have hq2 : q.2 = e := by
        rw [hf] at this
        exact (Option.some.injEq _ _ ▸ this).symm
      have hpe : p = decayEntry m now (c, e) := by
        rw [← hqp, ← hq1, ← hq2]
      rw [hpe] at hpkeep
      rw [decide_eq_true_eq] at hpkeep
      exact hpkeep hlt
    refine ⟨hnone, ?_, ?_⟩
    · intro threshold t hc
      obtain ⟨h, hhmem, hhc⟩ := List.mem_map.mp hc
      simp only [get_hotspots] at hhmem
      have hin := List.mem_mergeSort.mp hhmem
      obtain ⟨p, hpmem, hph⟩ := List.mem_filterMap.mp hin
      by_cases hcond : p.2.score *
          Real.exp (-(decay_all m now).decay_rate * (t - p.2.updated_at)) >
            threshold
      · rw [if_pos hcond] at hph
        have hcell : h.cell = p.1 := by
          cases hph
          rfl
        have : c ∈ (decay_all m now).grid.map Prod.fst :=
          List.mem_map.mpr ⟨p, hpmem, by rw [← hcell, hhc]⟩
        exact (gridFind_none_iff.mp hnone) this
      · rw [if_neg hcond] at hph
        cases hph
    · have hlen : ((m.grid.map (decayEntry m now)).filter
          (fun p => decide (¬ p.2.score < 0.01))).length <
          (m.grid.map (decayEntry m now)).length := by
        refine List.length_filter_lt_length_iff_exists.mpr
          ⟨decayEntry m now (c, e), hmemF, ?_⟩
        rw [decide_eq_true_eq]
        exact not_not_intro hlt
      rw [List.length_map] at hlen
      show (decay_all m now).grid.length < m.grid.length
      rw [decay_all_grid]
      exact hlen

/-- Witness for C6 on a one-cell map at elapsed time 0: `exp 0 = 1`, the
score 0.5 survives unchanged and the timestamp is restamped. -/
theorem decay_all_witness :
    gridFind (decay_all ⟨50, 1/20, 0, 0, [((0, 0), ⟨1/2, 0, ["v"]⟩)]⟩ 0).grid
      (0, 0) =
      some ⟨(1/2 : ℝ) * Real.exp (-(1/20 : ℝ) * ((0 : ℝ) - 0)), 0, ["v"]⟩ := by
  have h := (decay_all_spec ⟨50, 1/20, 0, 0, [((0, 0), ⟨1/2, 0, ["v"]⟩)]⟩ 0
    (0, 0) ⟨1/2, 0, ["v"]⟩ (by simp) rfl).1
  exact h (by
    rw [show -(1/20 : ℝ) * ((0 : ℝ) - 0) = 0 by ring_nf, Real.exp_zero]
    norm_num)

end CPM

namespace RA

/-- A pair beyond the distance threshold produces no record at all. -/
lemma compute_pair_risk_none {θ : ℝ} (id_a : String) (va : VehState)
    (id_b : String) (vb : VehState) (now : ℝ)
    (h : pairDist va vb > θ) :
    compute_pair_risk θ id_a va id_b vb now = none := by
  unfold compute_pair_risk
  rw [if_pos h]

/-- A retained pair (distance not above the threshold) produces exactly
the record built from the source's formulas. -/
lemma compute_pair_risk_some {θ : ℝ} (id_a : String) (va : VehState)
    (id_b : String) (vb : VehState) (now : ℝ)
    (h : ¬ pairDist va vb > θ) :
    compute_pair_risk θ id_a va id_b vb now =
      some { vehicle_a := id_a, vehicle_b := id_b,
             distance_m := pyRound (pairDist va vb) 2,
             relative_speed_mps := pyRound (pairRelSpeed va vb) 2,
             ttc_seconds :=
               ttcField (ttcOf (pairDist va vb) (pairRelSpeed va vb)),
             risk_score :=
               pyRound (scoreOf (pairDist va vb)
                 (ttcOf (pairDist va vb) (pairRelSpeed va vb))) 4,
             risk_level :=
               levelOf (scoreOf (pairDist va vb)
                 (ttcOf (pairDist va vb) (pairRelSpeed va vb))),
             timestamp := now } := by
  unfold compute_pair_risk
  rw [if_neg h]

/-- Every record in `pairRecords` comes from some ordered pair of listed
vehicles via `_compute_pair_risk`. -/
lemma mem_pairRecords {θ now : ℝ} {l : List (String × VehState)}
    {r : RiskRecord} (h : r ∈ pairRecords θ now l) :
    ∃ id_a va id_b vb, (id_a, va) ∈ l ∧ (id_b, vb) ∈ l ∧
      compute_pair_risk θ id_a va id_b vb now = some r := by
  induction l with
  | nil => simp [pairRecords] at h
  | cons p rest ih =>
    obtain ⟨id_a, va⟩ := p
    simp only [pairRecords, List.mem_append] at h
    rcases h with h | h
    · obtain ⟨q, hq, hqr⟩ := List.mem_filterMap.mp h
      exact ⟨id_a, va, q.1, q.2, List.mem_cons_self _ _,
        List.mem_cons_of_mem _ (by rw [Prod.mk.eta]; exact hq), hqr⟩
    · obtain ⟨ia, wa, ib, wb, hia, hib, heq⟩ := ih h
      exact ⟨ia, wa, ib, wb, List.mem_cons_of_mem _ hia,
        List.mem_cons_of_mem _ hib, heq⟩

/-- C3 (amended): for every retained pair the computed TTC is
`dist/rel_speed` when `rel_speed > 0.1` and infinite otherwise
(`ttcOf`), the unrounded risk score follows the claimed formula
(`scoreOf`), the record's `risk_level` classifies that unrounded score at
the 0.7/0.3 thresholds (`levelOf`), and the record's stored `risk_score`
is the unrounded score rounded to 4 decimal places. -/
theorem compute_pair_risk_fields :
    ∀ (θ : ℝ) (id_a : String) (va : VehState) (id_b : String)
      (vb : VehState) (now : ℝ),
      ¬ pairDist va vb > θ →
      ∃ r, compute_pair_risk θ id_a va id_b vb now = some r ∧
        r.risk_score =
          pyRound (scoreOf (pairDist va vb)
            (ttcOf (pairDist va vb) (pairRelSpeed va vb))) 4 ∧
        r.risk_level =
          levelOf (scoreOf (pairDist va vb)
            (ttcOf (pairDist va vb) (pairRelSpeed va vb))) ∧
        r.ttc_seconds =
          ttcField (ttcOf (pairDist va vb) (pairRelSpeed va vb)) := by
  intro θ id_a va id_b vb now h
  exact ⟨_, compute_pair_risk_some id_a va id_b vb now h, rfl, rfl, rfl⟩

/-- Vehicle at the origin moving at 10 m/s toward a stationary vehicle
50 m away. -/
def cexVa : VehState := ⟨0, 0, 10, 0⟩

/-- The stationary vehicle 50 m away. -/
def cexVb : VehState := ⟨50, 0, 0, 0⟩

lemma cex_dist : pairDist cexVa cexVb = 50 := by
  unfold pairDist
  rw [show ((cexVa.x - cexVb.x) ^ 2 + (cexVa.y - cexVb.y) ^ 2 : ℝ) = 50 ^ 2 by
    norm_num [cexVa, cexVb]]
  exact Real.sqrt_sq (by norm_num)

lemma cex_rel_speed : pairRelSpeed cexVa cexVb = 10 := by
  unfold pairRelSpeed
  rw [show ((cexVa.vx - cexVb.vx) ^ 2 + (cexVa.vy - cexVb.vy) ^ 2 : ℝ) =
      10 ^ 2 by norm_num [cexVa, cexVb]]
  exact Real.sqrt_sq (by norm_num)

lemma cex_score : scoreOf 50 (ttcOf 50 10) = 500 / 2601 := by
  rw [show ttcOf 50 10 = some 5 by
    unfold ttcOf
    rw [if_pos (by norm_num)]
    norm_num]
  show (if (5 : ℝ) < 100 then
    min 1 ((1 / ((5 : ℝ) + 0.1)) * (1 / (50 + 1)) * 50) else 0) = 500 / 2601
  rw [if_pos (by norm_num)]
  rw [show ((1 / ((5 : ℝ) + 0.1)) * (1 / (50 + 1)) * 50) = 500 / 2601 by
    norm_num]
  exact min_eq_right (by norm_num)

lemma cex_round : pyRound (500 / 2601) 4 = 1922 / 10000 := by
  have hval : ((500 : ℝ) / 2601) * 10 ^ 4 = 5000000 / 2601 := by norm_num
  have hfl : ⌊((500 : ℝ) / 2601) * 10 ^ 4⌋ = 1922 := by
    rw [hval, Int.floor_eq_iff]
    constructor <;> norm_num
  have := pyRound_of_lt_half hfl (by rw [hval]; norm_num)
  rw [this]
  norm_num

/-- C3 (counterexample): for the pair 50 m apart closing at 10 m/s
(TTC 5 s), the record's stored `risk_score` is 0.1922 — the claimed
formula value `min(1, (1/(5+0.1))·(1/(50+1))·50) = 500/2601 ≈ 0.19223`
rounded to 4 decimals — so the stored score does not equal the claimed
formula value. -/
theorem risk_score_rounding_cex :
    (compute_pair_risk 200 "A" cexVa "B" cexVb 0).map RiskRecord.risk_score =
      some ((1922 : ℝ) / 10000) ∧
    ((1922 : ℝ) / 10000) ≠
      min 1 ((1 / ((5 : ℝ) + 0.1)) * (1 / (50 + 1)) * 50) := by
  constructor
  · rw [compute_pair_risk_some "A" cexVa "B" cexVb 0 (by
      rw [cex_dist]; norm_num)]
    simp only [Option.map_some']
    show some (pyRound (scoreOf (pairDist cexVa cexVb)
      (ttcOf (pairDist cexVa cexVb) (pairRelSpeed cexVa cexVb))) 4) =
      some ((1922 : ℝ) / 10000)
    rw [cex_dist, cex_rel_speed, cex_score, cex_round]
  · rw [show ((1 / ((5 : ℝ) + 0.1)) * (1 / (50 + 1)) * 50) = 500 / 2601 by
      norm_num]
    rw [min_eq_right (by norm_num : (500 : ℝ) / 2601 ≤ 1)]
    norm_num

/-- Witness for C3's amended theorem at the concrete closing pair. -/
theorem compute_pair_risk_fields_witness :
    (compute_pair_risk 200 "A" cexVa "B" cexVb 0).map RiskRecord.risk_level =
      some (levelOf (scoreOf (pairDist cexVa cexVb)
        (ttcOf (pairDist cexVa cexVb) (pairRelSpeed cexVa cexVb)))) := by
  obtain ⟨r, hr, hs, hl, ht⟩ :=
    compute_pair_risk_fields 200 "A" cexVa "B" cexVb 0
      (by rw [cex_dist]; norm_num)
  rw [hr, Option.map_some', hl]

end RA

namespace RA

/-- Three-vehicle fleet with exactly one pair (A, B) inside 200 m. -/
def fleetA : VehState := ⟨0, 0, 0, 0⟩

/-- Second vehicle, 50 m from `fleetA`. -/
def fleetB : VehState := ⟨50, 0, 0, 0⟩

/-- Third vehicle, far from both. -/
def fleetC : VehState := ⟨10000, 0, 0, 0⟩

lemma fleet_dist_AB : pairDist fleetA fleetB = 50 := by
  unfold pairDist
  rw [show ((fleetA.x - fleetB.x) ^ 2 + (fleetA.y - fleetB.y) ^ 2 : ℝ) =
      50 ^ 2 by norm_num [fleetA, fleetB]]
  exact Real.sqrt_sq (by norm_num)

lemma fleet_dist_AC : pairDist fleetA fleetC = 10000 := by
  unfold pairDist
  rw [show ((fleetA.x - fleetC.x) ^ 2 + (fleetA.y - fleetC.y) ^ 2 : ℝ) =
      10000 ^ 2 by norm_num [fleetA, fleetC]]
  exact Real.sqrt_sq (by norm_num)

lemma fleet_dist_BC : pairDist fleetB fleetC = 9950 := by
  unfold pairDist
  rw [show ((fleetB.x - fleetC.x) ^ 2 + (fleetB.y - fleetC.y) ^ 2 : ℝ) =
      9950 ^ 2 by norm_num [fleetB, fleetC]]
  exact Real.sqrt_sq (by norm_num)

/-- C4: pairs beyond the threshold are excluded entirely (no record, not
even a LOW one); every returned record comes from a retained pair of the
input fleet; the output is sorted descending by `risk_score`; and for the
three-vehicle fleet in which only (A, B) is within 200 m, exactly one
record is returned. -/
theorem aggregate_spec :
    (∀ (θ : ℝ) (id_a : String) (va : VehState) (id_b : String)
        (vb : VehState) (now : ℝ),
      pairDist va vb > θ →
      compute_pair_risk θ id_a va id_b vb now = none) ∧
    (∀ (θ : ℝ) (vehicles : List (String × VehState)) (now : ℝ)
        (r : RiskRecord),
      r ∈ aggregate θ vehicles now →
      ∃ id_a va id_b vb, (id_a, va) ∈ vehicles ∧ (id_b, vb) ∈ vehicles ∧
        compute_pair_risk θ id_a va id_b vb now = some r ∧
        ¬ pairDist va vb > θ) ∧
    (∀ (θ : ℝ) (vehicles : List (String × VehState)) (now : ℝ),
      (aggregate θ vehicles now).Sorted
        (fun a b => b.risk_score ≤ a.risk_score)) ∧
    (aggregate 200 [("A", fleetA), ("B", fleetB), ("C", fleetC)] 0).length
      = 1 := by
  refine ⟨?_, ?_, ?_, ?_⟩
  · intro θ id_a va id_b vb now h
    exact compute_pair_risk_none id_a va id_b vb now h
  · intro θ vehicles now r hr
    have hmem : r ∈ pairRecords θ now vehicles :=
      List.mem_mergeSort.mp hr
    obtain ⟨id_a, va, id_b, vb, hia, hib, heq⟩ := mem_pairRecords hmem
    refine ⟨id_a, va, id_b, vb, hia, hib, heq, ?_⟩
    intro hgt
    rw [compute_pair_risk_none id_a va id_b vb now hgt] at heq
    cases heq
  · intro θ vehicles now
    have hp := @List.sorted_mergeSort RiskRecord
      (fun (a b : RiskRecord) => decide (b.risk_score ≤ a.risk_score))
      (fun a b c hab hbc => by
        rw [decide_eq_true_eq] at *
        exact le_trans hbc hab)
      (fun a b => by
        rcases le_total b.risk_score a.risk_score with h | h
        · rw [Bool.or_eq_true, decide_eq_true_eq]
          exact Or.inl h
        · rw [Bool.or_eq_true, decide_eq_true_eq, decide_eq_true_eq]
          exact Or.inr h)
      (pairRecords θ now vehicles)
    exact hp.imp (fun h => by rwa [decide_eq_true_eq] at h)
  · have hAB : ¬ pairDist fleetA fleetB > 200 := by
      rw [fleet_dist_AB]; norm_num
    have hAC : compute_pair_risk 200 "A" fleetA "C" fleetC 0 = none :=
      compute_pair_risk_none _ _ _ _ _ (by rw [fleet_dist_AC]; norm_num)
    have hBC : compute_pair_risk 200 "B" fleetB "C" fleetC 0 = none :=
      compute_pair_risk_none _ _ _ _ _ (by rw [fleet_dist_BC]; norm_num)
    have hABs := compute_pair_risk_some "A" fleetA "B" fleetB 0 hAB
    unfold aggregate
    rw [List.length_mergeSort]
    simp only [pairRecords, List.filterMap_cons, hABs, hAC, hBC,
      List.filterMap_nil]
    simp

end RA

namespace RA

/-- Witness for C4 at the concrete three-vehicle fleet: the far pair is
excluded and exactly one record comes back. -/
theorem aggregate_spec_witness :
    compute_pair_risk 200 "A" fleetA "C" fleetC 0 = none ∧
    (aggregate 200 [("A", fleetA), ("B", fleetB), ("C", fleetC)] 0).length
      = 1 :=
  ⟨aggregate_spec.1 200 "A" fleetA "C" fleetC 0
      (by rw [fleet_dist_AC]; norm_num),
    aggregate_spec.2.2.2⟩

end RA

namespace OBR

lemma classify_some_cases (a : CollisionRiskAssessor) (t min_dist : ℝ) :
    (t ≤ a.ttc_high → _classify_ttc a (some t) min_dist = RiskLevel.HIGH) ∧
    (¬ t ≤ a.ttc_high → t ≤ a.ttc_medium →
      _classify_ttc a (some t) min_dist = RiskLevel.MEDIUM) ∧
    (¬ t ≤ a.ttc_high → ¬ t ≤ a.ttc_medium → min_dist < a.min_dist_alert →
      _classify_ttc a (some t) min_dist = RiskLevel.MEDIUM) ∧
    (¬ t ≤ a.ttc_high → ¬ t ≤ a.ttc_medium → ¬ min_dist < a.min_dist_alert →
      _classify_ttc a (some t) min_dist = RiskLevel.LOW) := by
  refine ⟨fun h1 => ?_, fun h1 h2 => ?_, fun h1 h2 h3 => ?_,
    fun h1 h2 h3 => ?_⟩
  · simp only [_classify_ttc]
    rw [if_pos h1]
  · simp only [_classify_ttc]
    rw [if_neg h1, if_pos h2]
  · simp only [_classify_ttc]
    rw [if_neg h1, if_neg h2, if_pos h3]
  · simp only [_classify_ttc]
    rw [if_neg h1, if_neg h2, if_neg h3]

lemma classify_none_cases (a : CollisionRiskAssessor) (min_dist : ℝ) :
    (min_dist < a.min_dist_alert →
      _classify_ttc a none min_dist = RiskLevel.MEDIUM) ∧
    (¬ min_dist < a.min_dist_alert →
      _classify_ttc a none min_dist = RiskLevel.LOW) := by
  refine ⟨fun h1 => ?_, fun h1 => ?_⟩
  · simp only [_classify_ttc]
    rw [if_pos h1]
  · simp only [_classify_ttc]
    rw [if_neg h1]

/-- C7: `assess_radar` produces `ttc = |distance_m / relative_velocity|`
exactly when `relative_velocity < -0.1` (else no TTC), and classifies
HIGH when `ttc ≤ ttc_high`, else MEDIUM when `ttc ≤ ttc_medium`, else
MEDIUM when `distance_m < min_distance_alert`, else LOW. -/
theorem assess_radar_spec :
    ∀ (a : CollisionRiskAssessor) (distance_m relative_velocity : ℝ),
      ((assess_radar a distance_m relative_velocity).ttc_seconds =
        if relative_velocity < -0.1 then
          some |distance_m / relative_velocity| else none) ∧
      (∀ t : ℝ,
        (assess_radar a distance_m relative_velocity).ttc_seconds = some t →
        (t ≤ a.ttc_high →
          (assess_radar a distance_m relative_velocity).risk_level =
            RiskLevel.HIGH) ∧
        (¬ t ≤ a.ttc_high → t ≤ a.ttc_medium →
          (assess_radar a distance_m relative_velocity).risk_level =
            RiskLevel.MEDIUM) ∧
        (¬ t ≤ a.ttc_high → ¬ t ≤ a.ttc_medium →
          distance_m < a.min_dist_alert →
          (assess_radar a distance_m relative_velocity).risk_level =
            RiskLevel.MEDIUM) ∧
        (¬ t ≤ a.ttc_high → ¬ t ≤ a.ttc_medium →
          ¬ distance_m < a.min_dist_alert →
          (assess_radar a distance_m relative_velocity).risk_level =
            RiskLevel.LOW)) ∧
      ((assess_radar a distance_m relative_velocity).ttc_seconds = none →
        (distance_m < a.min_dist_alert →
          (assess_radar a distance_m relative_velocity).risk_level =
            RiskLevel.MEDIUM) ∧
        (¬ distance_m < a.min_dist_alert →
          (assess_radar a distance_m relative_velocity).risk_level =
            RiskLevel.LOW)) := by
  intro a distance_m relative_velocity
  have httc : (assess_radar a distance_m relative_velocity).ttc_seconds =
      if relative_velocity < -0.1 then
        some |distance_m / relative_velocity| else none := rfl
  have hlevel : (assess_radar a distance_m relative_velocity).risk_level =
      _classify_ttc a
        (if relative_velocity < -0.1 then
          some |distance_m / relative_velocity| else none)
        distance_m := rfl
  refine ⟨httc, ?_, ?_⟩
  · intro t ht
    rw [httc] at ht
    by_cases hrv : relative_velocity < -0.1
    · rw [if_pos hrv] at ht
      have heq : |distance_m / relative_velocity| = t :=
        Option.some.inj ht
      rw [hlevel, if_pos hrv, heq]
      exact classify_some_cases a t distance_m
    · rw [if_neg hrv] at ht
      cases ht
  · intro ht
    rw [httc] at ht
    by_cases hrv : relative_velocity < -0.1
    · rw [if_pos hrv] at ht
      cases ht
    · rw [hlevel, if_neg hrv]
      exact classify_none_cases a distance_m

/-- Witness for C7: thresholds (2, 5, 10), radar range 100 m closing at
20 m/s ⇒ TTC 5 s, classified MEDIUM. -/
theorem assess_radar_spec_witness :
    (assess_radar ⟨2, 5, 10⟩ 100 (-20)).ttc_seconds = some 5 ∧
    (assess_radar ⟨2, 5, 10⟩ 100 (-20)).risk_level = RiskLevel.MEDIUM := by
  have h := assess_radar_spec ⟨2, 5, 10⟩ 100 (-20)
  have habs : |(100 : ℝ) / (-20)| = 5 := by
    rw [show (100 : ℝ) / (-20) = -5 by norm_num, abs_neg]
    norm_num
  have h5 : (assess_radar ⟨2, 5, 10⟩ 100 (-20)).ttc_seconds = some 5 := by
    rw [h.1, if_pos (by norm_num : (-20 : ℝ) < -0.1), habs]
  exact ⟨h5, ((h.2.1 5 h5).2.1 (by norm_num) (by norm_num))⟩

end OBR

namespace OBR

lemma compute_ttc_none_a {pe ve po vo : ℝ × ℝ} {radius : ℝ}
    (ha : ttcA ve vo < 1e-10) :
    compute_ttc pe ve po vo radius = none := by
  simp only [compute_ttc]
  rw [if_pos ha]

lemma compute_ttc_none_disc {pe ve po vo : ℝ × ℝ} {radius : ℝ}
    (ha : ¬ ttcA ve vo < 1e-10)
    (hd : ttcB pe ve po vo ^ 2 - 4 * ttcA ve vo * ttcC pe po radius < 0) :
    compute_ttc pe ve po vo radius = none := by
  simp only [compute_ttc]
  rw [if_neg ha, if_pos hd]

lemma compute_ttc_main {pe ve po vo : ℝ × ℝ} {radius : ℝ} {r1 r2 : ℝ}
    (ha : ¬ ttcA ve vo < 1e-10)
    (hd : ¬ ttcB pe ve po vo ^ 2 - 4 * ttcA ve vo * ttcC pe po radius < 0)
    (h1 : r1 = (-ttcB pe ve po vo -
      Real.sqrt (ttcB pe ve po vo ^ 2 -
        4 * ttcA ve vo * ttcC pe po radius)) / (2 * ttcA ve vo))
    (h2 : r2 = (-ttcB pe ve po vo +
      Real.sqrt (ttcB pe ve po vo ^ 2 -
        4 * ttcA ve vo * ttcC pe po radius)) / (2 * ttcA ve vo)) :
    compute_ttc pe ve po vo radius =
      if min r1 r2 > 0 then some (min r1 r2)
      else if max r1 r2 > 0 then some (max r1 r2) else none := by
  subst h1
  subst h2
  simp only [compute_ttc]
  rw [if_neg ha, if_neg hd]

lemma quad_roots {a b c : ℝ} (ha : 0 < a) (hd : 0 ≤ b ^ 2 - 4 * a * c)
    (x : ℝ) :
    a * x ^ 2 + b * x + c = 0 ↔
      x = (-b + Real.sqrt (b ^ 2 - 4 * a * c)) / (2 * a) ∨
      x = (-b - Real.sqrt (b ^ 2 - 4 * a * c)) / (2 * a) := by
  have hsq : discrim a b c =
      Real.sqrt (b ^ 2 - 4 * a * c) * Real.sqrt (b ^ 2 - 4 * a * c) := by
    unfold discrim
    rw [Real.mul_self_sqrt hd]
  have h := quadratic_eq_zero_iff (ne_of_gt ha) hsq x
  rw [show a * x ^ 2 + b * x + c = a * (x * x) + b * x + c by ring]
  exact h

lemma pick_root_spec {A B C : ℝ} (hA : 0 < A)
    (hd0 : 0 ≤ B ^ 2 - 4 * A * C) :
    ((if min ((-B - Real.sqrt (B ^ 2 - 4 * A * C)) / (2 * A))
          ((-B + Real.sqrt (B ^ 2 - 4 * A * C)) / (2 * A)) > 0 then
        some (min ((-B - Real.sqrt (B ^ 2 - 4 * A * C)) / (2 * A))
          ((-B + Real.sqrt (B ^ 2 - 4 * A * C)) / (2 * A)))
      else if max ((-B - Real.sqrt (B ^ 2 - 4 * A * C)) / (2 * A))
          ((-B + Real.sqrt (B ^ 2 - 4 * A * C)) / (2 * A)) > 0 then
        some (max ((-B - Real.sqrt (B ^ 2 - 4 * A * C)) / (2 * A))
          ((-B + Real.sqrt (B ^ 2 - 4 * A * C)) / (2 * A)))
      else none) = none ↔
      ∀ t : ℝ, 0 < t → A * t ^ 2 + B * t + C ≠ 0) ∧
    (∀ t : ℝ,
      (if min ((-B - Real.sqrt (B ^ 2 - 4 * A * C)) / (2 * A))
          ((-B + Real.sqrt (B ^ 2 - 4 * A * C)) / (2 * A)) > 0 then
        some (min ((-B - Real.sqrt (B ^ 2 - 4 * A * C)) / (2 * A))
          ((-B + Real.sqrt (B ^ 2 - 4 * A * C)) / (2 * A)))
      else if max ((-B - Real.sqrt (B ^ 2 - 4 * A * C)) / (2 * A))
          ((-B + Real.sqrt (B ^ 2 - 4 * A * C)) / (2 * A)) > 0 then
        some (max ((-B - Real.sqrt (B ^ 2 - 4 * A * C)) / (2 * A))
          ((-B + Real.sqrt (B ^ 2 - 4 * A * C)) / (2 * A)))
      else none) = some t →
      0 < t ∧ A * t ^ 2 + B * t + C = 0 ∧
        ∀ u : ℝ, 0 < u → A * u ^ 2 + B * u + C = 0 → t ≤ u) := by
  set s := Real.sqrt (B ^ 2 - 4 * A * C) with hs
  set t1 := (-B - s) / (2 * A) with ht1
  set t2 := (-B + s) / (2 * A) with ht2
  have hs0 : 0 ≤ s := hs ▸ Real.sqrt_nonneg _
  have ht12 : t1 ≤ t2 := by
    rw [ht1, ht2]
    exact (div_le_div_iff_of_pos_right (by positivity)).mpr (by linarith)
  have hmin : min t1 t2 = t1 := min_eq_left ht12
  have hmax : max t1 t2 = t2 := max_eq_right ht12
  rw [hmin, hmax]
  have hroot : ∀ x : ℝ, A * x ^ 2 + B * x + C = 0 ↔ x = t2 ∨ x = t1 := by
    intro x
    rw [quad_roots hA hd0 x, ← hs, ← ht1, ← ht2]
  constructor
  · constructor
    · intro hnone t ht hq
      rcases (hroot t).mp hq with h | h
      · subst h
        by_cases h1 : t1 > 0
        · rw [if_pos h1] at hnone
          cases hnone
        · rw [if_neg h1, if_pos ht] at hnone
          cases hnone
      · subst h
        rw [if_pos ht] at hnone
        cases hnone
    · intro hno
      have hn1 : ¬ t1 > 0 := fun h => hno t1 h ((hroot t1).mpr (Or.inr rfl))
      have hn2 : ¬ t2 > 0 := fun h => hno t2 h ((hroot t2).mpr (Or.inl rfl))
      rw [if_neg hn1, if_neg hn2]
  · intro t ht
    by_cases h1 : t1 > 0
    · rw [if_pos h1] at ht
      obtain rfl := Option.some.inj ht
      refine ⟨h1, (hroot t1).mpr (Or.inr rfl), ?_⟩
      intro u hu hq
      rcases (hroot u).mp hq with h | h
      · subst h
        exact ht12
      · subst h
        exact le_refl _
    · rw [if_neg h1] at ht
      by_cases h2 : t2 > 0
      · rw [if_pos h2] at ht
        obtain rfl := Option.some.inj ht
        refine ⟨h2, (hroot t2).mpr (Or.inl rfl), ?_⟩
        intro u hu hq
        rcases (hroot u).mp hq with h | h
        · subst h
          exact le_refl _
        · subst h
          exact absurd hu h1
      · rw [if_neg h2] at ht
        cases ht

end OBR

namespace OBR

/-- C5: `compute_ttc` returns `None` exactly when `a < 1e-10`, the
discriminant is negative, or the quadratic `a·t² + b·t + c` has no
strictly positive root; otherwise it returns the earliest strictly
positive root.  Concretely, for two discs 100 m apart closing at 10 m/s
with combined radius 6 m it returns exactly 9.4 s, and for discs moving
apart it returns `None`. -/
theorem compute_ttc_spec :
    (∀ (pos_ego vel_ego pos_other vel_other : ℝ × ℝ) (radius : ℝ),
      (compute_ttc pos_ego vel_ego pos_other vel_other radius = none ↔
        (ttcA vel_ego vel_other < 1e-10 ∨
          ttcB pos_ego vel_ego pos_other vel_other ^ 2 -
            4 * ttcA vel_ego vel_other * ttcC pos_ego pos_other radius < 0 ∨
          ∀ t : ℝ, 0 < t →
            ttcA vel_ego vel_other * t ^ 2 +
              ttcB pos_ego vel_ego pos_other vel_other * t +
              ttcC pos_ego pos_other radius ≠ 0)) ∧
      (∀ t : ℝ,
        compute_ttc pos_ego vel_ego pos_other vel_other radius = some t →
        0 < t ∧
        ttcA vel_ego vel_other * t ^ 2 +
          ttcB pos_ego vel_ego pos_other vel_other * t +
          ttcC pos_ego pos_other radius = 0 ∧
        ∀ u : ℝ, 0 < u →
          ttcA vel_ego vel_other * u ^ 2 +
            ttcB pos_ego vel_ego pos_other vel_other * u +
            ttcC pos_ego pos_other radius = 0 → t ≤ u)) ∧
    compute_ttc (0, 0) (0, 0) (100, 0) (-10, 0) 3 = some 9.4 ∧
    compute_ttc (0, 0) (0, 0) (100, 0) (10, 0) 3 = none := by
  refine ⟨?_, ?_, ?_⟩
  · intro pe ve po vo radius
    by_cases ha : ttcA ve vo < 1e-10
    · refine ⟨iff_of_true (compute_ttc_none_a ha) (Or.inl ha), ?_⟩
      intro t ht
      rw [compute_ttc_none_a ha] at ht
      cases ht
    · by_cases hd : ttcB pe ve po vo ^ 2 -
          4 * ttcA ve vo * ttcC pe po radius < 0
      · refine ⟨iff_of_true (compute_ttc_none_disc ha hd)
          (Or.inr (Or.inl hd)), ?_⟩
        intro t ht
        rw [compute_ttc_none_disc ha hd] at ht
        cases ht
      · have hapos : 0 < ttcA ve vo :=
          lt_of_lt_of_le (by norm_num) (not_lt.mp ha)
        have hd0 : 0 ≤ ttcB pe ve po vo ^ 2 -
            4 * ttcA ve vo * ttcC pe po radius := not_lt.mp hd
        have hcomp := compute_ttc_main ha hd rfl rfl
        have hpick := pick_root_spec hapos hd0
        constructor
        · rw [hcomp]
          constructor
          · intro h
            exact Or.inr (Or.inr (hpick.1.mp h))
          · intro h
            rcases h with h | h | h
            · exact absurd h ha
            · exact absurd h hd
            · exact hpick.1.mpr h
        · intro t ht
          rw [hcomp] at ht
          exact hpick.2 t ht
  · have hA : ttcA ((0 : ℝ), (0 : ℝ)) ((-10 : ℝ), (0 : ℝ)) = 100 := by
      norm_num [ttcA]
    have hB : ttcB ((0 : ℝ), (0 : ℝ)) ((0 : ℝ), (0 : ℝ))
        ((100 : ℝ), (0 : ℝ)) ((-10 : ℝ), (0 : ℝ)) = -2000 := by
      norm_num [ttcB]
    have hC : ttcC ((0 : ℝ), (0 : ℝ)) ((100 : ℝ), (0 : ℝ)) 3 = 9964 := by
      norm_num [ttcC]
    have ha9 : ¬ ttcA ((0 : ℝ), (0 : ℝ)) ((-10 : ℝ), (0 : ℝ)) < 1e-10 := by
      rw [hA]
      norm_num
    have hd9 : ¬ ttcB ((0 : ℝ), (0 : ℝ)) ((0 : ℝ), (0 : ℝ))
        ((100 : ℝ), (0 : ℝ)) ((-10 : ℝ), (0 : ℝ)) ^ 2 -
        4 * ttcA ((0 : ℝ), (0 : ℝ)) ((-10 : ℝ), (0 : ℝ)) *
          ttcC ((0 : ℝ), (0 : ℝ)) ((100 : ℝ), (0 : ℝ)) 3 < 0 := by
      rw [hA, hB, hC]
      norm_num
    have hcomp := compute_ttc_main ha9 hd9 rfl rfl
    rw [hcomp, hA, hB, hC]
    rw [show ((-2000 : ℝ)) ^ 2 - 4 * 100 * 9964 = 14400 by norm_num]
    rw [show (14400 : ℝ) = 120 ^ 2 by norm_num,
      Real.sqrt_sq (by norm_num : (0 : ℝ) ≤ 120)]
    rw [show (-(-2000 : ℝ) - 120) / (2 * 100) = 9.4 by norm_num]
    rw [show (-(-2000 : ℝ) + 120) / (2 * 100) = 10.6 by norm_num]
    rw [min_eq_left (by norm_num : (9.4 : ℝ) ≤ 10.6)]
    rw [if_pos (by norm_num : (9.4 : ℝ) > 0)]
  · have hA : ttcA ((0 : ℝ), (0 : ℝ)) ((10 : ℝ), (0 : ℝ)) = 100 := by
      norm_num [ttcA]
    have hB : ttcB ((0 : ℝ), (0 : ℝ)) ((0 : ℝ), (0 : ℝ))
        ((100 : ℝ), (0 : ℝ)) ((10 : ℝ), (0 : ℝ)) = 2000 := by
      norm_num [ttcB]
    have hC : ttcC ((0 : ℝ), (0 : ℝ)) ((100 : ℝ), (0 : ℝ)) 3 = 9964 := by
      norm_num [ttcC]
    have ha9 : ¬ ttcA ((0 : ℝ), (0 : ℝ)) ((10 : ℝ), (0 : ℝ)) < 1e-10 := by
      rw [hA]
      norm_num
    have hd9 : ¬ ttcB ((0 : ℝ), (0 : ℝ)) ((0 : ℝ), (0 : ℝ))
        ((100 : ℝ), (0 : ℝ)) ((10 : ℝ), (0 : ℝ)) ^ 2 -
        4 * ttcA ((0 : ℝ), (0 : ℝ)) ((10 : ℝ), (0 : ℝ)) *
          ttcC ((0 : ℝ), (0 : ℝ)) ((100 : ℝ), (0 : ℝ)) 3 < 0 := by
      rw [hA, hB, hC]
      norm_num
    have hcomp := compute_ttc_main ha9 hd9 rfl rfl
    rw [hcomp, hA, hB, hC]
    rw [show ((2000 : ℝ)) ^ 2 - 4 * 100 * 9964 = 14400 by norm_num]
    rw [show (14400 : ℝ) = 120 ^ 2 by norm_num,
      Real.sqrt_sq (by norm_num : (0 : ℝ) ≤ 120)]
    rw [show (-(2000 : ℝ) - 120) / (2 * 100) = -10.6 by norm_num]
    rw [show (-(2000 : ℝ) + 120) / (2 * 100) = -9.4 by norm_num]
    rw [min_eq_left (by norm_num : (-10.6 : ℝ) ≤ -9.4)]
    rw [max_eq_right (by norm_num : (-10.6 : ℝ) ≤ -9.4)]
    rw [if_neg (by norm_num : ¬ (-10.6 : ℝ) > 0)]
    rw [if_neg (by norm_num : ¬ (-9.4 : ℝ) > 0)]

end OBR

namespace OBR

/-- Witness for C5: 9.4 s is a strictly positive root of the concrete
quadratic for the discs 100 m apart closing at 10 m/s. -/
theorem compute_ttc_spec_witness :
    0 < (9.4 : ℝ) ∧
    ttcA ((0 : ℝ), (0 : ℝ)) ((-10 : ℝ), (0 : ℝ)) * (9.4 : ℝ) ^ 2 +
      ttcB ((0 : ℝ), (0 : ℝ)) ((0 : ℝ), (0 : ℝ)) ((100 : ℝ), (0 : ℝ))
        ((-10 : ℝ), (0 : ℝ)) * (9.4 : ℝ) +
      ttcC ((0 : ℝ), (0 : ℝ)) ((100 : ℝ), (0 : ℝ)) 3 = 0 := by
  have h := (compute_ttc_spec.1 (0, 0) (0, 0) (100, 0) (-10, 0) 3).2
    9.4 compute_ttc_spec.2.1
  exact ⟨h.1, h.2.1⟩

end OBR

namespace EKF

/-- When the innovation covariance is singular the correction step leaves
the state and covariance exactly unchanged. -/
lemma ekf_update_singular {m : ℕ} (x : Fin 6 → ℝ)
    (P : Matrix (Fin 6) (Fin 6) ℝ) (z : Fin m → ℝ)
    (H : Matrix (Fin m) (Fin 6) ℝ) (R : Matrix (Fin m) (Fin m) ℝ)
    (h : (H * P * H.transpose + R).det = 0) :
    _ekf_update x P z H R = (x, P) := by
  simp only [_ekf_update, npInv]
  rw [if_pos h]

/-- C8: on a singular innovation covariance S the shared correction step
is skipped atomically — `x` and `P` come back exactly unchanged — and the
callers `update_imu`, `update_radar` and (once initialised) `update_gps`
return their state unmodified; no failure escapes (every update is a total
function, the `LinAlgError` being caught inside `_ekf_update`). -/
theorem ekf_singular_skip :
    (∀ (m : ℕ) (x : Fin 6 → ℝ) (P : Matrix (Fin 6) (Fin 6) ℝ)
        (z : Fin m → ℝ) (H : Matrix (Fin m) (Fin 6) ℝ)
        (R : Matrix (Fin m) (Fin m) ℝ),
      (H * P * H.transpose + R).det = 0 →
      _ekf_update x P z H R = (x, P)) ∧
    (∀ (st : EKFState) (ax ay : ℝ),
      (imuH * st.P * imuH.transpose + st.R_imu).det = 0 →
      update_imu st ax ay = st) ∧
    (∀ (st : EKFState) (distance : ℝ),
      (radarH st * st.P * (radarH st).transpose + st.R_radar).det = 0 →
      update_radar st distance = st) ∧
    (∀ (st : EKFState) (lat lon : ℝ),
      st.initialised = true →
      (gpsH * st.P * gpsH.transpose + st.R_gps).det = 0 →
      update_gps st lat lon = st) := by
  refine ⟨?_, ?_, ?_, ?_⟩
  · intro m x P z H R h
    exact ekf_update_singular x P z H R h
  · intro st ax ay h
    simp only [update_imu]
    rw [ekf_update_singular st.x st.P _ imuH st.R_imu h]
  · intro st distance h
    simp only [update_radar]
    rw [ekf_update_singular st.x st.P _ (radarH st) st.R_radar h]
  · intro st lat lon hinit h
    simp only [update_gps]
    rw [ekf_update_singular st.x st.P _ gpsH st.R_gps h]
    simp only [hinit, if_true]
    rw [← hinit]

/-- Witness for C8: with a zero observation matrix and zero noise the
innovation covariance is the zero matrix, whose determinant vanishes, and
the correction returns the state unchanged. -/
theorem ekf_singular_skip_witness :
    _ekf_update (fun _ => (0 : ℝ)) (0 : Matrix (Fin 6) (Fin 6) ℝ)
      ![(0 : ℝ)] (0 : Matrix (Fin 1) (Fin 6) ℝ)
      (0 : Matrix (Fin 1) (Fin 1) ℝ) =
      (fun _ => (0 : ℝ), (0 : Matrix (Fin 6) (Fin 6) ℝ)) := by
  apply ekf_singular_skip.1
  rw [show ((0 : Matrix (Fin 1) (Fin 6) ℝ) * (0 : Matrix (Fin 6) (Fin 6) ℝ) *
      (0 : Matrix (Fin 1) (Fin 6) ℝ).transpose +
      (0 : Matrix (Fin 1) (Fin 1) ℝ)) = 0 by simp]
  exact Matrix.det_zero ⟨0⟩

end EKF
